import Mathlib

/-!
Shallow embedding of the Spawn SDK's policy-decision and sub-agent
lifecycle engine (`sdk/spawn/__init__.py`), together with theorems
checking the natural-language specification against it.

Conventions of the embedding:
* Python lists and sets of strings become `List String`.
* Python `None`-able string arguments become `Option String`; Python
  truthiness of a string (`if target:`) is falsity of both `none` and
  `some ""`.
* Fallible code (statements that can raise) returns `Except String _`,
  the error string naming the Python exception.
* The registry's class-level mutable state becomes an explicit
  `AgentsState` record threaded through the operations, and the
  fire-and-forget messages a function emits are returned as a list.
-/

namespace Spawn

/-- The `PolicyConfig` dataclass: the user's safety settings, with the
source's default field values. -/
structure PolicyConfig where
  auto_spawn_mode : String := "off"
  max_concurrent_sub_agents : Nat := 5
  max_sub_agents_per_hour : Nat := 10
  max_tokens_per_sub_agent : Nat := 50000
  permissions_allowed : List String := ["files.read", "agent.message"]
  permissions_forbidden : List String := ["system.shell", "files.delete", "agent.spawn"]
  permissions_ask : List String := ["files.write", "process.execute", "network.fetch"]
  allowed_paths : List String := []
  forbidden_paths : List String :=
    ["~/.ssh/**", "~/.aws/**", "~/.config/gcloud/**",
     "**/.env", "**/*.pem", "**/*.key", "**/secrets/**"]
  allowed_commands : List String := []
  allowed_network_domains : List String := []
  check_in_hours : Nat := 4
deriving DecidableEq

/-- Models Python `str.startswith`. -/
def startsWithStr (s pre : String) : Bool :=
  pre.data.isPrefixOf s.data

/-- Models `os.path.expanduser`, parameterized by the value of the home
directory: `~` alone and a leading `~/` are replaced by `home`; every
other path (including the `~user` form, which depends on the host's
user database) is returned unchanged. -/
def expanduser (home : String) (path : String) : String :=
  match path.data with
  | ['~'] => home
  | '~' :: '/' :: rest => String.mk (home.data ++ '/' :: rest)
  | _ => path

/-- Token alphabet of the regex that `_match_glob` builds from a glob
pattern: a literal character (the source escapes `.`, so `.` is
literal), `[^/]*` for `*`, and `.*` for `**`. -/
inductive GlobTok where
  | lit (c : Char)
  | anyNonSep
  | anyRun
deriving DecidableEq

/-- The pattern-to-regex conversion in `_match_glob`: each leftmost
`**` becomes `.*` (the placeholder replacement), each remaining `*`
becomes `[^/]*`, and every other character is a literal. -/
def parseGlob : List Char → List GlobTok
  | [] => []
  | '*' :: '*' :: ps => .anyRun :: parseGlob ps
  | '*' :: ps => .anyNonSep :: parseGlob ps
  | c :: ps => .lit c :: parseGlob ps

/-- The suffixes of `s` reachable by deleting a prefix that contains no
path separator: the candidate remainders for `[^/]*`. -/
def nonSepSuffixes : List Char → List (List Char)
  | [] => [[]]
  | c :: s => (c :: s) :: (if c = '/' then [] else nonSepSuffixes s)

/-- All suffixes of `s`: the candidate remainders for `.*`. -/
def allSuffixes : List Char → List (List Char)
  | [] => [[]]
  | c :: s => (c :: s) :: allSuffixes s

/-- Membership in the language of the anchored regex `^t₁…tₙ$` built by
`_match_glob`: a literal consumes one equal character, `[^/]*` consumes
any separator-free run, `.*` consumes any run. -/
def tokMatch : List GlobTok → List Char → Bool
  | [], s => s.isEmpty
  | .lit _ :: _, [] => false
  | .lit c :: ts, d :: s => c == d && tokMatch ts s
  | .anyNonSep :: ts, s => (nonSepSuffixes s).any (fun s2 => tokMatch ts s2)
  | .anyRun :: ts, s => (allSuffixes s).any (fun s2 => tokMatch ts s2)

/-- `_match_glob(path, pattern)`: convert the glob pattern to an
anchored regex and test the whole path against it. -/
def _match_glob (path : String) (pattern : String) : Bool :=
  tokMatch (parseGlob pattern.data) path.data

/-- `policy.is_path_allowed`: `~`-expand the path and every pattern of
the allow-list, true as soon as one pattern matches. -/
def is_path_allowed (home : String) (cfg : PolicyConfig) (path : String) : Bool :=
  let p := expanduser home path
  cfg.allowed_paths.any (fun pat => _match_glob p (expanduser home pat))

/-- `policy.is_path_forbidden`: `~`-expand the path and every pattern
of the forbid-list, true as soon as one pattern matches. -/
def is_path_forbidden (home : String) (cfg : PolicyConfig) (path : String) : Bool :=
  let p := expanduser home path
  cfg.forbidden_paths.any (fun pat => _match_glob p (expanduser home pat))

/-- `policy.is_allowed(permission, target=None)`: forbidden first, then
allowed; inside the allowed branch the path gate runs only when the
permission starts with `files.` and the target is truthy (not `None`
and not the empty string). -/
def is_allowed (home : String) (cfg : PolicyConfig) (permission : String)
    (target : Option String) : Bool :=
  if cfg.permissions_forbidden.contains permission then false
  else if cfg.permissions_allowed.contains permission then
    match target with
    | some t =>
      if startsWithStr permission "files." && t != "" then
        is_path_allowed home cfg t && !(is_path_forbidden home cfg t)
      else true
    | none => true
  else false

/-- `policy.is_forbidden`: direct membership in the forbidden set. -/
def is_forbidden (cfg : PolicyConfig) (permission : String) : Bool :=
  cfg.permissions_forbidden.contains permission

/-- `policy.requires_approval`: direct membership in the ask set. -/
def requires_approval (cfg : PolicyConfig) (permission : String) : Bool :=
  cfg.permissions_ask.contains permission

/-- Python `str.isspace` characters relevant to `str.split()`. -/
def pyIsSpace (c : Char) : Bool :=
  c == ' ' || c == '\t' || c == '\n' || c == '\r' || c == '\x0b' || c == '\x0c'

/-- Python `str.split()` with no separator: maximal runs of
non-whitespace characters, empties discarded. `acc` is the current
token, reversed. -/
def pySplitAux : List Char → List Char → List (List Char)
  | [], acc => if acc.isEmpty then [] else [acc.reverse]
  | c :: rest, acc =>
    if pyIsSpace c then
      if acc.isEmpty then pySplitAux rest [] else acc.reverse :: pySplitAux rest []
    else pySplitAux rest (c :: acc)

/-- Python `command.split()`. -/
def pySplitWhitespace (s : String) : List String :=
  (pySplitAux s.data []).map String.mk

/-- `policy.is_command_allowed`: `cmd_name = command.split()[0] if
command else ""`, then membership in the command allow-list. The `[0]`
index raises `IndexError` when the split of a non-empty string produces
no tokens (a whitespace-only command). -/
def is_command_allowed (cfg : PolicyConfig) (command : String) : Except String Bool :=
  if command == "" then .ok (cfg.allowed_commands.contains "")
  else
    match pySplitWhitespace command with
    | [] => .error "IndexError"
    | cmd_name :: _ => .ok (cfg.allowed_commands.contains cmd_name)

/-- `agents.would_auto_approve(permissions)`: each requested permission
is represented by its `scope` field (`perm.get("scope", "")`). -/
def would_auto_approve (cfg : PolicyConfig) (permissions : List String) : Bool :=
  if cfg.auto_spawn_mode == "off" || cfg.auto_spawn_mode == "queue" then false
  else if cfg.auto_spawn_mode == "unrestricted" then true
  else
    !(permissions.any (fun scope =>
      cfg.permissions_forbidden.contains scope ||
      (cfg.auto_spawn_mode == "constrained" && cfg.permissions_ask.contains scope)))

/-- The `SubAgent` dataclass: the handle for a spawned sub-agent. The
source never assigns to `status` after construction, so it keeps its
default `"online"`. -/
structure SubAgent where
  id : String
  name : String
  role : String
  status : String := "online"
deriving DecidableEq

/-- Python `role or "Sub-Agent"`: falsy (`None` or empty) roles are
replaced by the default display role. -/
def pyOrRole (role : Option String) : String :=
  match role with
  | none => "Sub-Agent"
  | some r => if r == "" then "Sub-Agent" else r

/-- Outbound fire-and-forget messages the registry emits. -/
inductive OutMsg where
  | sub_agent_terminate (sub_agent_id : String) (reason : String) (notify_user : Bool)
  | sub_agent_spawn (sub_agent_id : String) (name : String) (role : Option String)
      (permissions : List String)
  | notifyUser (title : String) (body : String) (priority : String) (category : String)
deriving DecidableEq

/-- The class-level mutable state of `agents`: `_active`,
`_spawned_this_hour` and the `_spawning_paused` flag that
`pause_spawning` creates (absent-at-start is modelled as `false`). -/
structure AgentsState where
  active : List SubAgent := []
  spawned_this_hour : Nat := 0
  spawning_paused : Bool := false
deriving DecidableEq

/-- `agents.can_spawn()`: unconditionally true in `off` mode, otherwise
false once the concurrency or hourly cap is reached. It reads only the
caps and counters; it never consults `_spawning_paused`. -/
def can_spawn (cfg : PolicyConfig) (st : AgentsState) : Bool :=
  if cfg.auto_spawn_mode == "off" then true
  else if st.active.length ≥ cfg.max_concurrent_sub_agents then false
  else if st.spawned_this_hour ≥ cfg.max_sub_agents_per_hour then false
  else true

/-- `agents.active_count()`. -/
def active_count (st : AgentsState) : Nat :=
  st.active.length

/-- `SubAgent.terminate(reason)`: the whole body is one
`_connection.send` of a `sub_agent_terminate` notice; it assigns
neither `self.status` nor any `agents` attribute, so its only effect is
the emitted message. -/
def SubAgent.terminate (sub : SubAgent) (reason : String) : List OutMsg :=
  [.sub_agent_terminate sub.id reason true]

/-- Registry-level view of `SubAgent.terminate`: the state before and
after the call, plus the messages sent. The source method touches no
registry state, so the state passes through unchanged. -/
def terminateStep (st : AgentsState) (sub : SubAgent) (reason : String) :
    AgentsState × List OutMsg :=
  (st, sub.terminate reason)

/-- `agents.request_spawn(...)`: sends a correlated
`agent_spawn_request` and awaits the decision. `decision` is the
`decision` field of the reply payload, `none` when the request timed
out or the reply carried no decision. Only an `"approved"` decision
creates a handle (in `online` state), appends it to the active set and
increments the hourly counter; any other outcome returns `none` with
the state unchanged. The caps and the pause flag are never checked. -/
def request_spawn (st : AgentsState) (name : String) (role : Option String)
    (sub_agent_id : String) (decision : Option String) :
    AgentsState × Option SubAgent :=
  if decision == some "approved" then
    let sub : SubAgent := { id := sub_agent_id, name := name, role := pyOrRole role }
    ({ st with active := st.active ++ [sub],
               spawned_this_hour := st.spawned_this_hour + 1 }, some sub)
  else (st, none)

/-- `agents.spawn(...)`: the direct path. The very first statement
raises `PermissionError` when `would_auto_approve(permissions or [])`
is false, before anything is sent or mutated; otherwise it sends the
`sub_agent_spawn` notice, appends the new handle, increments the hourly
counter, and optionally sends a low-priority notification. The result
triple is (state after, messages sent, raised-or-returned value). -/
def spawn (cfg : PolicyConfig) (st : AgentsState) (name : String) (role : Option String)
    (permissions : List String) (sub_agent_id : String) (notify : Bool) :
    AgentsState × List OutMsg × Except String SubAgent :=
  if !(would_auto_approve cfg permissions) then
    (st, [], .error "Cannot auto-spawn with these permissions")
  else
    let sub : SubAgent := { id := sub_agent_id, name := name, role := pyOrRole role }
    let msgs := [OutMsg.sub_agent_spawn sub_agent_id name role permissions] ++
      (if notify then [OutMsg.notifyUser "Sub-Agent Spawned" (name ++ " started") "low" "auto_spawn"]
       else [])
    ({ st with active := st.active ++ [sub],
               spawned_this_hour := st.spawned_this_hour + 1 }, msgs, .ok sub)

/-- `agents.kill_all(reason)`: one terminate notice per active handle,
then `._active.clear()`; the hourly counter and the pause flag are left
alone. -/
def kill_all (st : AgentsState) (reason : String) : AgentsState × List OutMsg :=
  ({ st with active := [] }, (st.active.map (fun sub => sub.terminate reason)).flatten)

/-- `agents.pause_spawning()`: set `_spawning_paused`; nothing else. -/
def pause_spawning (st : AgentsState) : AgentsState :=
  { st with spawning_paused := true }

/-- One registry operation, with its nondeterministic external inputs
(fresh ids, the remote decision) as constructor data. -/
inductive AgentOp where
  | requestSpawnOp (name : String) (role : Option String) (sub_agent_id : String)
      (decision : Option String)
  | spawnOp (name : String) (role : Option String) (permissions : List String)
      (sub_agent_id : String) (notify : Bool)
  | terminateOp (sub : SubAgent) (reason : String)
  | killAllOp (reason : String)
  | pauseOp

/-- State transition of a single registry operation. -/
def stepAgents (cfg : PolicyConfig) (st : AgentsState) : AgentOp → AgentsState
  | .requestSpawnOp name role sub_agent_id decision =>
    (request_spawn st name role sub_agent_id decision).1
  | .spawnOp name role permissions sub_agent_id notify =>
    (spawn cfg st name role permissions sub_agent_id notify).1
  | .terminateOp sub reason => (terminateStep st sub reason).1
  | .killAllOp reason => (kill_all st reason).1
  | .pauseOp => pause_spawning st

/-- Run a sequence of registry operations under a fixed policy
snapshot. -/
def runAgents (cfg : PolicyConfig) (st : AgentsState) : List AgentOp → AgentsState
  | [] => st
  | op :: ops => runAgents cfg (stepAgents cfg st op) ops

/-- The caller discipline the SDK's own integration example follows:
every spawn-creating operation happens only in a state where
`can_spawn()` is true (and, for the cap to mean anything, outside `off`
mode, where `can_spawn` ignores the caps entirely). -/
def spawnGuard (cfg : PolicyConfig) (st : AgentsState) : AgentOp → Bool
  | .requestSpawnOp _ _ _ _ => can_spawn cfg st && cfg.auto_spawn_mode != "off"
  | .spawnOp _ _ _ _ _ => can_spawn cfg st && cfg.auto_spawn_mode != "off"
  | _ => true

/-- A trace is guarded when every operation satisfies `spawnGuard` in
its pre-state. -/
def guardedTrace (cfg : PolicyConfig) (st : AgentsState) : List AgentOp → Bool
  | [] => true
  | op :: ops => spawnGuard cfg st op && guardedTrace cfg (stepAgents cfg st op) ops

/-- An inbound message as the dispatch loop sees it: its `type` field
and the `request_id` field of its payload, when present. -/
structure InMsg where
  msg_type : Option String
  request_id : Option String
deriving DecidableEq

/-- The state of an `asyncio.Future` in `_pending_responses`:
`set_result` moves `pending` to `resolved`; calling `set_result` on an
already-resolved future raises `InvalidStateError`. -/
inductive FutureState where
  | pending
  | resolved (m : InMsg)
deriving DecidableEq

/-- Dict lookup in `_pending_responses` (modelled as an association
list with distinct keys; lookup returns the first binding). -/
def lookupFS : List (String × FutureState) → String → Option FutureState
  | [], _ => none
  | (k, v) :: rest, rid => if k = rid then some v else lookupFS rest rid

/-- `future.set_result(data)` on the entry for `rid`: overwrite the
first binding of `rid` with the resolved state. -/
def resolveEntry : List (String × FutureState) → String → InMsg →
    List (String × FutureState)
  | [], _, _ => []
  | (k, v) :: rest, rid, m =>
    if k = rid then (k, .resolved m) :: rest else (k, v) :: resolveEntry rest rid m

/-- One iteration of `SpawnConnection._message_loop` on the pending
table: if the payload carries a `request_id` that is registered, call
`set_result` on its future — which succeeds on a pending future and
raises `InvalidStateError` on an already-resolved one (the source has
no `done()` guard, and the loop body has no exception handler, so the
error stops the loop). Messages with no registered `request_id` go to
handler dispatch, which does not touch the table. -/
def loopStep (t : List (String × FutureState)) (m : InMsg) :
    Except String (List (String × FutureState)) :=
  match m.request_id with
  | some rid =>
    match lookupFS t rid with
    | some .pending => .ok (resolveEntry t rid m)
    | some (.resolved _) => .error "InvalidStateError"
    | none => .ok t
  | none => .ok t

/-- `_message_loop` processing a batch of already-buffered inbound
messages. While messages are buffered, `websockets`' `recv` can return
without yielding to the event loop, so the coroutine waiting in
`_request` (whose `finally` pops the table entry) need not run between
two iterations: this models that legal schedule, in which the table
changes only through `loopStep`. -/
def runLoop (t : List (String × FutureState)) :
    List InMsg → Except String (List (String × FutureState))
  | [] => .ok t
  | m :: ms =>
    match loopStep t m with
    | .ok t' => runLoop t' ms
    | .error e => .error e

/-- `messages.all` guard: `m` does not target an entry that is already
resolved. -/
def notResolvedTarget (t : List (String × FutureState)) (m : InMsg) : Bool :=
  match m.request_id with
  | none => true
  | some rid =>
    match lookupFS t rid with
    | some (.resolved _) => false
    | _ => true

/-! ### Helper lemmas about the glob matcher -/

theorem strData_append (x y : String) : (x ++ y).data = x.data ++ y.data := by
  cases x; cases y; rfl

theorem strExt {x y : String} (h : x.data = y.data) : x = y := by
  cases x; cases y; exact congrArg String.mk h

theorem mem_allSuffixes (s : List Char) :
    ∀ s2, s2 ∈ allSuffixes s ↔ ∃ s1, s = s1 ++ s2 := by
  induction s with
  | nil =>
    intro s2
    simp [allSuffixes, eq_comm]
  | cons c s ih =>
    intro s2
    simp only [allSuffixes, List.mem_cons, ih]
    constructor
    · rintro (rfl | ⟨s1, rfl⟩)
      · exact ⟨[], rfl⟩
      · exact ⟨c :: s1, rfl⟩
    · rintro ⟨s1, h⟩
      cases s1 with
      | nil => left; simpa using h.symm
      | cons d s1' =>
        right
        simp only [List.cons_append, List.cons.injEq] at h
        exact ⟨s1', h.2⟩

theorem mem_nonSepSuffixes (s : List Char) :
    ∀ s2, s2 ∈ nonSepSuffixes s ↔ ∃ s1, s = s1 ++ s2 ∧ ∀ c ∈ s1, c ≠ '/' := by
  induction s with
  | nil =>
    intro s2
    simp only [nonSepSuffixes, List.mem_singleton]
    constructor
    · rintro rfl; exact ⟨[], rfl, by simp⟩
    · rintro ⟨s1, h, _⟩
      rcases List.append_eq_nil.1 h.symm with ⟨rfl, rfl⟩
      rfl
  | cons c s ih =>
    intro s2
    by_cases hc : c = '/'
    · subst hc
      have hns : nonSepSuffixes ('/' :: s) = [('/' :: s)] := by
        simp [nonSepSuffixes]
      rw [hns, List.mem_singleton]
      constructor
      · rintro rfl; exact ⟨[], rfl, by simp⟩
      · rintro ⟨s1, h, hfree⟩
        cases s1 with
        | nil => simpa using h.symm
        | cons d s1' =>
          exfalso
          simp only [List.cons_append, List.cons.injEq] at h
          exact hfree d (List.mem_cons_self d s1') h.1.symm
    · simp only [nonSepSuffixes, if_neg hc, List.mem_cons, ih]
      constructor
      · rintro (rfl | ⟨s1, rfl, hfree⟩)
        · exact ⟨[], rfl, by simp⟩
        · refine ⟨c :: s1, rfl, ?_⟩
          intro d hd
          rcases List.mem_cons.1 hd with rfl | hd
          · exact hc
          · exact hfree d hd
      · rintro ⟨s1, h, hfree⟩
        cases s1 with
        | nil => left; simpa using h.symm
        | cons d s1' =>
          right
          simp only [List.cons_append, List.cons.injEq] at h
          refine ⟨s1', h.2, fun e he => hfree e (List.mem_cons_of_mem d he)⟩

theorem tokMatch_nil_iff (s : List Char) : tokMatch [] s = true ↔ s = [] := by
  cases s <;> simp [tokMatch]

theorem tokMatch_anyNonSep_iff (ts : List GlobTok) (s : List Char) :
    tokMatch (GlobTok.anyNonSep :: ts) s = true ↔
      ∃ s1 s2, s = s1 ++ s2 ∧ (∀ c ∈ s1, c ≠ '/') ∧ tokMatch ts s2 = true := by
  show (nonSepSuffixes s).any (fun s2 => tokMatch ts s2) = true ↔ _
  rw [List.any_eq_true]
  constructor
  · rintro ⟨s2, hmem, hm⟩
    obtain ⟨s1, rfl, hfree⟩ := (mem_nonSepSuffixes s s2).1 hmem
    exact ⟨s1, s2, rfl, hfree, hm⟩
  · rintro ⟨s1, s2, rfl, hfree, hm⟩
    exact ⟨s2, (mem_nonSepSuffixes _ s2).2 ⟨s1, rfl, hfree⟩, hm⟩

theorem tokMatch_anyRun_iff (ts : List GlobTok) (s : List Char) :
    tokMatch (GlobTok.anyRun :: ts) s = true ↔
      ∃ s1 s2, s = s1 ++ s2 ∧ tokMatch ts s2 = true := by
  show (allSuffixes s).any (fun s2 => tokMatch ts s2) = true ↔ _
  rw [List.any_eq_true]
  constructor
  · rintro ⟨s2, hmem, hm⟩
    obtain ⟨s1, rfl⟩ := (mem_allSuffixes s s2).1 hmem
    exact ⟨s1, s2, rfl, hm⟩
  · rintro ⟨s1, s2, rfl, hm⟩
    exact ⟨s2, (mem_allSuffixes _ s2).2 ⟨s1, rfl⟩, hm⟩

theorem tokMatch_lits_iff (l : List Char) :
    ∀ (ts : List GlobTok) (s : List Char),
      tokMatch (l.map GlobTok.lit ++ ts) s = true ↔
        ∃ s2, s = l ++ s2 ∧ tokMatch ts s2 = true := by
  induction l with
  | nil =>
    intro ts s
    simp
  | cons c l ih =>
    intro ts s
    cases s with
    | nil =>
      constructor
      · intro h
        exact absurd h (by simp [tokMatch])
      · rintro ⟨s2, h, -⟩
        exact absurd h (by simp)
    | cons d s' =>
      have hstep : tokMatch ((c :: l).map GlobTok.lit ++ ts) (d :: s') =
          ((c == d) && tokMatch (l.map GlobTok.lit ++ ts) s') := rfl
      rw [hstep, Bool.and_eq_true, beq_iff_eq, ih]
      constructor
      · rintro ⟨rfl, s2, rfl, hm⟩
        exact ⟨s2, rfl, hm⟩
      · rintro ⟨s2, h, hm⟩
        have h' : d = c ∧ s' = l ++ s2 := by simpa using h
        exact ⟨h'.1.symm, s2, h'.2, hm⟩

theorem tokMatch_single_anyNonSep_iff (s : List Char) :
    tokMatch [GlobTok.anyNonSep] s = true ↔ ∀ c ∈ s, c ≠ '/' := by
  rw [tokMatch_anyNonSep_iff]
  constructor
  · rintro ⟨s1, s2, rfl, hfree, hm⟩
    rw [tokMatch_nil_iff] at hm
    subst hm
    simpa using hfree
  · intro hfree
    exact ⟨s, [], by simp, hfree, by simp [tokMatch]⟩

/-- Full characterization of the one-level pattern: `*/secrets/*`
matches exactly the strings of the form `a ++ "/secrets/" ++ b` with
`a` and `b` separator-free. -/
theorem match_glob_one_level_iff (p : String) :
    _match_glob p "*/secrets/*" = true ↔
      ∃ a b : String, (∀ c ∈ a.data, c ≠ '/') ∧ (∀ c ∈ b.data, c ≠ '/') ∧
        p = a ++ "/secrets/" ++ b := by
  have hparse : parseGlob "*/secrets/*".data =
      GlobTok.anyNonSep ::
        ("/secrets/".data.map GlobTok.lit ++ [GlobTok.anyNonSep]) := by rfl
  show tokMatch (parseGlob "*/secrets/*".data) p.data = true ↔ _
  rw [hparse, tokMatch_anyNonSep_iff]
  constructor
  · rintro ⟨s1, s2, hp, hfree1, hm⟩
    rw [tokMatch_lits_iff] at hm
    obtain ⟨s3, rfl, hm3⟩ := hm
    rw [tokMatch_single_anyNonSep_iff] at hm3
    refine ⟨String.mk s1, String.mk s3, hfree1, hm3, ?_⟩
    apply strExt
    rw [strData_append, strData_append]
    simpa using hp
  · rintro ⟨a, b, ha, hb, rfl⟩
    refine ⟨a.data, "/secrets/".data ++ b.data, ?_, ha, ?_⟩
    · rw [strData_append, strData_append]
      simp
    · rw [tokMatch_lits_iff]
      exact ⟨b.data, rfl, (tokMatch_single_anyNonSep_iff b.data).2 hb⟩

/-- C9: the glob matcher is anchored whole-string matching where `*`
matches any separator-free run and `**` any run: `**/secrets/**`
matches `/home/u/secrets/x` and `/home/u/a/secrets/b/c` but not
`/home/u/secretsfoo`, and `*/secrets/*` matches exactly the paths with
one (possibly empty) separator-free segment before `secrets` and one
after. -/
theorem match_glob_secrets_patterns :
    _match_glob "/home/u/secrets/x" "**/secrets/**" = true ∧
    _match_glob "/home/u/a/secrets/b/c" "**/secrets/**" = true ∧
    _match_glob "/home/u/secretsfoo" "**/secrets/**" = false ∧
    ∀ p : String, _match_glob p "*/secrets/*" = true ↔
      ∃ a b : String, (∀ c ∈ a.data, c ≠ '/') ∧ (∀ c ∈ b.data, c ≠ '/') ∧
        p = a ++ "/secrets/" ++ b :=
  ⟨by decide, by decide, by decide, match_glob_one_level_iff⟩

/-! ### Permission precedence (`policy.is_allowed`) -/

/-- C1, counterexample: with `files.read` in the allowed set, an empty
allow-list and the default forbid-list, the claim's file-scoped clause
demands `is_allowed("files.read", "")` to equal the path check (which
is false), but the code returns true: a supplied empty-string target is
falsy in Python and skips the path gate. -/
theorem is_allowed_empty_target_cex :
    is_allowed "/home/u"
      { permissions_allowed := ["files.read"], permissions_forbidden := [] }
      "files.read" (some "") = true ∧
    (is_path_allowed "/home/u"
        { permissions_allowed := ["files.read"], permissions_forbidden := [] } "" &&
      !(is_path_forbidden "/home/u"
        { permissions_allowed := ["files.read"], permissions_forbidden := [] } "")) =
      false := by
  exact ⟨by decide, by decide⟩

/-- C1, amended: precedence of `is_allowed` as claimed, with the
file-scoped path gate applying only to a non-empty supplied target (an
empty-string target behaves like an absent one): forbidden membership
forces false; an allowed file-scoped permission with non-empty target
reduces to the path allow/forbid check; an allowed permission otherwise
is true; membership in neither set gives false. -/
theorem is_allowed_cases_amended (home : String) (cfg : PolicyConfig) (p : String)
    (t : Option String) :
    (cfg.permissions_forbidden.contains p = true → is_allowed home cfg p t = false) ∧
    (cfg.permissions_forbidden.contains p = false →
      cfg.permissions_allowed.contains p = true →
      ∀ s, t = some s → s ≠ "" → startsWithStr p "files." = true →
        is_allowed home cfg p t =
          (is_path_allowed home cfg s && !(is_path_forbidden home cfg s))) ∧
    (cfg.permissions_forbidden.contains p = false →
      cfg.permissions_allowed.contains p = true →
      (startsWithStr p "files." = false ∨ t = none ∨ t = some "") →
        is_allowed home cfg p t = true) ∧
    (cfg.permissions_forbidden.contains p = false →
      cfg.permissions_allowed.contains p = false →
        is_allowed home cfg p t = false) := by
  refine ⟨?_, ?_, ?_, ?_⟩
  · intro hf
    have hf' : p ∈ cfg.permissions_forbidden := by simpa using hf
    simp [is_allowed, hf']
  · rintro hf ha s rfl hs hsw
    have hf' : p ∉ cfg.permissions_forbidden := by simpa using hf
    have ha' : p ∈ cfg.permissions_allowed := by simpa using ha
    have hbne : (s != "") = true := by simpa using hs
    simp [is_allowed, hf', ha', hsw, hbne]
  · intro hf ha hd
    have hf' : p ∉ cfg.permissions_forbidden := by simpa using hf
    have ha' : p ∈ cfg.permissions_allowed := by simpa using ha
    rcases hd with hsw | rfl | rfl
    · cases t <;> simp_all [is_allowed]
    · simp [is_allowed, hf', ha']
    · simp [is_allowed, hf', ha']
  · intro hf ha
    have hf' : p ∉ cfg.permissions_forbidden := by simpa using hf
    have ha' : p ∉ cfg.permissions_allowed := by simpa using ha
    simp [is_allowed, hf', ha']

/-- Witness for the amended C1 statement at a concrete policy. -/
theorem is_allowed_cases_amended_witness :
    is_allowed "/home/u"
      { permissions_allowed := ["files.read"], permissions_forbidden := [],
        allowed_paths := ["/tmp/**"] } "files.read" (some "/tmp/x") = true := by
  have h := (is_allowed_cases_amended "/home/u"
      { permissions_allowed := ["files.read"], permissions_forbidden := [],
        allowed_paths := ["/tmp/**"] } "files.read" (some "/tmp/x")).2.1
      (by decide) (by decide) "/tmp/x" rfl (by decide) (by decide)
  rw [h]
  decide

/-- C10: a file-scoped permission in the allowed set (and, by the
forbidden-first precedence, not in the forbidden set) is allowed with
no target without consulting the path lists: the result is true for
every choice of `allowed_paths` and `forbidden_paths`, including ones
that forbid every path. -/
theorem is_allowed_no_target_skips_path_gate (home : String) (cfg : PolicyConfig)
    (p : String) :
    cfg.permissions_forbidden.contains p = false →
    cfg.permissions_allowed.contains p = true →
    startsWithStr p "files." = true →
    is_allowed home cfg p none = true ∧
    ∀ ap fp, is_allowed home
        { cfg with allowed_paths := ap, forbidden_paths := fp } p none = true := by
  intro hf ha _
  have hf' : p ∉ cfg.permissions_forbidden := by simpa using hf
  have ha' : p ∈ cfg.permissions_allowed := by simpa using ha
  constructor
  · simp [is_allowed, hf', ha']
  · intro ap fp
    simp [is_allowed, hf', ha']

/-- Witness for C10: path gating is skipped even when the forbid-list
pattern `**` forbids every path. -/
theorem is_allowed_no_target_skips_path_gate_witness :
    is_allowed "/home/u"
      { permissions_forbidden := [], forbidden_paths := ["**"] }
      "files.read" none = true :=
  (is_allowed_no_target_skips_path_gate "/home/u"
    { permissions_forbidden := [], forbidden_paths := ["**"] }
    "files.read" (by decide) (by decide) (by decide)).1

/-! ### Commands (`policy.is_command_allowed`) -/

/-- C8: the first-token lookup raises `IndexError` on a whitespace-only
command (`" ".split()` is empty and `[0]` is out of range) instead of
returning false as claimed; the empty string is handled (falsy guard)
and ordinary commands check the first whitespace-delimited token. -/
theorem is_command_allowed_whitespace_raises :
    is_command_allowed {} " " = Except.error "IndexError" ∧
    is_command_allowed {} "" = Except.ok false ∧
    is_command_allowed { allowed_commands := ["ls"] } "ls -la" = Except.ok true ∧
    is_command_allowed { allowed_commands := ["ls"] } "rm -rf /" = Except.ok false ∧
    is_command_allowed {} "\t \t" = Except.error "IndexError" := by
  exact ⟨rfl, rfl, rfl, rfl, rfl⟩

/-! ### Sub-agent lifecycle (`agents`, `SubAgent`) -/

/-- C3: `SubAgent.terminate` only sends the termination notice — it
does not set the handle's status to `terminated`, does not remove it
from the active set, and does not free a slot at the concurrency cap:
with one active handle and a cap of 1, `can_spawn` is still false after
terminating that handle. -/
theorem terminate_no_local_effect :
    (∀ (st : AgentsState) (sub : SubAgent) (reason : String),
      terminateStep st sub reason =
        (st, [OutMsg.sub_agent_terminate sub.id reason true])) ∧
    ((terminateStep
        { active := [{ id := "sub_a", name := "A", role := "Sub-Agent" }],
          spawned_this_hour := 1 }
        { id := "sub_a", name := "A", role := "Sub-Agent" } "Task complete").1 =
      { active := [{ id := "sub_a", name := "A", role := "Sub-Agent" }],
        spawned_this_hour := 1 } ∧
     ({ id := "sub_a", name := "A", role := "Sub-Agent" } : SubAgent).status =
       "online" ∧
     can_spawn { auto_spawn_mode := "trusted", max_concurrent_sub_agents := 1 }
       (terminateStep
         { active := [{ id := "sub_a", name := "A", role := "Sub-Agent" }],
           spawned_this_hour := 1 }
         { id := "sub_a", name := "A", role := "Sub-Agent" } "Task complete").1 =
       false) := by
  exact ⟨fun st sub reason => rfl, by decide, by decide, by decide⟩

/-- C6: the direct spawn path raises exactly when `would_auto_approve`
is false for the requested permissions, and raising happens before any
effect: the state is returned unchanged and no message is sent. -/
theorem spawn_raises_iff_not_auto_approve (cfg : PolicyConfig) (st : AgentsState)
    (name : String) (role : Option String) (perms : List String)
    (sub_agent_id : String) (notify : Bool) :
    ((spawn cfg st name role perms sub_agent_id notify).2.2 =
        Except.error "Cannot auto-spawn with these permissions" ↔
      would_auto_approve cfg perms = false) ∧
    (would_auto_approve cfg perms = false →
      spawn cfg st name role perms sub_agent_id notify =
        (st, [], Except.error "Cannot auto-spawn with these permissions")) := by
  by_cases h : would_auto_approve cfg perms = true
  · constructor
    · simp [spawn, h]
    · intro hf
      rw [h] at hf
      cases hf
  · have hf : would_auto_approve cfg perms = false := by
      simpa using h
    constructor
    · simp [spawn, hf]
    · intro _
      simp [spawn, hf]

/-- Witness for C6 at a concrete input: in the default `off` mode the
direct spawn raises and leaves everything untouched. -/
theorem spawn_raises_iff_not_auto_approve_witness :
    spawn {} {} "helper" none [] "sub_1" true =
      ({}, [], Except.error "Cannot auto-spawn with these permissions") :=
  (spawn_raises_iff_not_auto_approve {} {} "helper" none [] "sub_1" true).2 rfl

/-- C7: `pause_spawning` sets `_spawning_paused`, but neither
`can_spawn` nor `request_spawn` ever reads it: `can_spawn` is unchanged
by pausing (for every policy and state), and after pausing a fresh
registry an approved `request_spawn` still creates a sub-agent. -/
theorem pause_flag_never_consulted :
    (∀ (cfg : PolicyConfig) (st : AgentsState),
      can_spawn cfg (pause_spawning st) = can_spawn cfg st) ∧
    ((pause_spawning {}).spawning_paused = true) ∧
    (can_spawn {} (pause_spawning {}) = true) ∧
    ((request_spawn (pause_spawning {}) "helper" none "sub_1"
        (some "approved")).1.active.length = 1) := by
  exact ⟨fun cfg st => rfl, rfl, by decide, by decide⟩

/-! ### Auto-approval (`agents.would_auto_approve`) -/

/-- C5: `off` and `queue` never auto-approve; `unrestricted` always
does; in `trusted` or `constrained` mode a forbidden requested scope
vetoes; in `constrained` mode an ask-set scope also vetoes; with no
applicable veto (`trusted`: no forbidden scope — ask-set scopes do not
prevent approval; `constrained`: no forbidden and no ask scope) the
request is approved. -/
theorem would_auto_approve_mode_cases (cfg : PolicyConfig) (perms : List String) :
    ((cfg.auto_spawn_mode = "off" ∨ cfg.auto_spawn_mode = "queue") →
      would_auto_approve cfg perms = false) ∧
    (cfg.auto_spawn_mode = "unrestricted" → would_auto_approve cfg perms = true) ∧
    ((cfg.auto_spawn_mode = "trusted" ∨ cfg.auto_spawn_mode = "constrained") →
      (∃ s ∈ perms, cfg.permissions_forbidden.contains s = true) →
      would_auto_approve cfg perms = false) ∧
    (cfg.auto_spawn_mode = "constrained" →
      (∃ s ∈ perms, cfg.permissions_ask.contains s = true) →
      would_auto_approve cfg perms = false) ∧
    (cfg.auto_spawn_mode = "trusted" →
      (∀ s ∈ perms, cfg.permissions_forbidden.contains s = false) →
      would_auto_approve cfg perms = true) ∧
    (cfg.auto_spawn_mode = "constrained" →
      (∀ s ∈ perms, cfg.permissions_forbidden.contains s = false ∧
        cfg.permissions_ask.contains s = false) →
      would_auto_approve cfg perms = true) := by
  refine ⟨?_, ?_, ?_, ?_, ?_, ?_⟩
  · rintro (h | h) <;> simp [would_auto_approve, h]
  · intro h
    simp [would_auto_approve, h]
  · rintro (h | h) ⟨s, hs, hmem⟩
    · have hmem' : s ∈ cfg.permissions_forbidden := by simpa using hmem
      simp only [would_auto_approve, h]
      simp [List.any_eq_true]
      exact ⟨s, hs, hmem'⟩
    · have hmem' : s ∈ cfg.permissions_forbidden := by simpa using hmem
      simp only [would_auto_approve, h]
      simp [List.any_eq_true]
      exact ⟨s, hs, Or.inl hmem'⟩
  · rintro h ⟨s, hs, hmem⟩
    have hmem' : s ∈ cfg.permissions_ask := by simpa using hmem
    simp only [would_auto_approve, h]
    simp [List.any_eq_true]
    exact ⟨s, hs, Or.inr hmem'⟩
  · intro h hforb
    simp only [would_auto_approve, h]
    simp [List.any_eq_true]
    intro s hs
    have := hforb s hs
    simp_all
  · intro h hboth
    simp only [would_auto_approve, h]
    simp [List.any_eq_true]
    intro s hs
    have := hboth s hs
    constructor <;> simp_all

/-- Witness for C5: in `constrained` mode a requested scope in the
default ask set (`files.write`) blocks auto-approval; in `trusted` mode
the same request is auto-approved. -/
theorem would_auto_approve_mode_cases_witness :
    would_auto_approve { auto_spawn_mode := "constrained" } ["files.write"] = false ∧
    would_auto_approve { auto_spawn_mode := "trusted" } ["files.write"] = true :=
  ⟨(would_auto_approve_mode_cases { auto_spawn_mode := "constrained" }
      ["files.write"]).2.2.2.1 rfl ⟨"files.write", by decide, by decide⟩,
   (would_auto_approve_mode_cases { auto_spawn_mode := "trusted" }
      ["files.write"]).2.2.2.2.1 rfl (by decide)⟩

/-! ### Concurrency cap (registry traces) -/

/-- C2, counterexample: the registry operations themselves never check
the caps — with mode `unrestricted` and a cap of 1, two direct spawns
leave 2 handles in the active set. -/
theorem active_cap_unenforced_cex :
    ({ auto_spawn_mode := "unrestricted", max_concurrent_sub_agents := 1 } :
        PolicyConfig).max_concurrent_sub_agents <
      (runAgents { auto_spawn_mode := "unrestricted", max_concurrent_sub_agents := 1 }
        {}
        [AgentOp.spawnOp "a" none [] "s1" false,
         AgentOp.spawnOp "b" none [] "s2" false]).active.length := by
  decide

/-- C2, amended: the cap invariant holds for guarded traces — every
spawn-creating operation is executed only in a pre-state where
`can_spawn()` is true with the auto-spawn mode not `off` (in `off` mode
`can_spawn` ignores the caps). Starting at or under the cap, the active
count never exceeds `max_concurrent_sub_agents`. -/
theorem guarded_trace_cap_invariant (cfg : PolicyConfig) (ops : List AgentOp) :
    ∀ st : AgentsState,
      st.active.length ≤ cfg.max_concurrent_sub_agents →
      guardedTrace cfg st ops = true →
      (runAgents cfg st ops).active.length ≤ cfg.max_concurrent_sub_agents := by
  induction ops with
  | nil =>
    intro st h _
    exact h
  | cons op ops ih =>
    intro st hle hg
    simp only [guardedTrace, Bool.and_eq_true] at hg
    obtain ⟨hguard, htail⟩ := hg
    simp only [runAgents]
    refine ih (stepAgents cfg st op) ?_ htail
    have hcap : ∀ hcs : can_spawn cfg st = true,
        ∀ hmode : (cfg.auto_spawn_mode != "off") = true,
        st.active.length < cfg.max_concurrent_sub_agents := by
      intro hcs hmode
      have hmode' : (cfg.auto_spawn_mode == "off") = false := by
        simpa using hmode
      by_cases hge : cfg.max_concurrent_sub_agents ≤ st.active.length
      · exfalso
        have hfalse : can_spawn cfg st = false := by
          simp [can_spawn, hmode', hge]
        rw [hfalse] at hcs
        cases hcs
      · omega
    cases op with
    | requestSpawnOp name role sid dec =>
      simp only [spawnGuard, Bool.and_eq_true] at hguard
      have hlt := hcap hguard.1 hguard.2
      simp only [stepAgents, request_spawn]
      by_cases hd : (dec == some "approved") = true
      · simp only [hd, if_pos rfl]
        simp only [if_true]
        simp [List.length_append]
        omega
      · have hd' : (dec == some "approved") = false := by simpa using hd
        simp [hd']
        omega
    | spawnOp name role permissions sid notify =>
      simp only [spawnGuard, Bool.and_eq_true] at hguard
      have hlt := hcap hguard.1 hguard.2
      simp only [stepAgents, spawn]
      by_cases hw : would_auto_approve cfg permissions = true
      · simp [hw, List.length_append]
        omega
      · have hw' : would_auto_approve cfg permissions = false := by simpa using hw
        simp [hw']
        omega
    | terminateOp sub reason =>
      simpa [stepAgents, terminateStep] using hle
    | killAllOp reason =>
      simp [stepAgents, kill_all]
    | pauseOp =>
      simpa [stepAgents, pause_spawning] using hle

/-- Witness for the amended C2 statement: one guarded spawn in
`trusted` mode from the empty registry stays under the default cap. -/
theorem guarded_trace_cap_invariant_witness :
    (runAgents { auto_spawn_mode := "trusted" } {}
        [AgentOp.spawnOp "a" none [] "s1" false]).active.length ≤
      ({ auto_spawn_mode := "trusted" } : PolicyConfig).max_concurrent_sub_agents :=
  guarded_trace_cap_invariant { auto_spawn_mode := "trusted" }
    [AgentOp.spawnOp "a" none [] "s1" false] {} (by decide) (by decide)

/-! ### Correlated replies (`_message_loop` and `_pending_responses`) -/

theorem lookupFS_resolveEntry_ne (t : List (String × FutureState)) (rid rid' : String)
    (m : InMsg) (h : rid' ≠ rid) :
    lookupFS (resolveEntry t rid m) rid' = lookupFS t rid' := by
  induction t with
  | nil => rfl
  | cons e rest ih =>
    obtain ⟨k, v⟩ := e
    by_cases hk : k = rid
    · subst hk
      have hk' : ¬(k = rid') := fun he => h (he.symm)
      simp [resolveEntry, lookupFS, hk']
    · by_cases hk' : k = rid'
      · subst hk'
        simp [resolveEntry, lookupFS, hk]
      · simp [resolveEntry, lookupFS, hk, hk', ih]

/-- C4, counterexample: two buffered inbound messages carrying the same
embedded `request_id` make the second `set_result` hit an
already-resolved future; the unguarded call raises `InvalidStateError`,
which propagates out of the dispatch loop and stops it. -/
theorem duplicate_reply_stops_loop_cex :
    runLoop [("req_1", FutureState.pending)]
      [{ msg_type := some "confirmation", request_id := some "req_1" },
       { msg_type := some "confirmation", request_id := some "req_1" }] =
      Except.error "InvalidStateError" := rfl

/-- C4, amended: a resolved slot's value is never overwritten, and when
the processed batch carries pairwise-distinct `request_id`s none of
which targets an already-resolved entry, the loop completes without
raising and every already-resolved slot keeps its value. (A duplicate
`request_id` instead raises `InvalidStateError` and stops the loop.) -/
theorem distinct_request_ids_loop_ok (msgs : List InMsg) :
    ∀ t : List (String × FutureState),
      (msgs.filterMap InMsg.request_id).Nodup →
      msgs.all (notResolvedTarget t) = true →
      (∃ t', runLoop t msgs = Except.ok t') ∧
      (∀ rid m t', lookupFS t rid = some (FutureState.resolved m) →
        runLoop t msgs = Except.ok t' →
        lookupFS t' rid = some (FutureState.resolved m)) := by
  induction msgs with
  | nil =>
    intro t _ _
    refine ⟨⟨t, rfl⟩, ?_⟩
    intro rid m t' hres heq
    simp only [runLoop] at heq
    injection heq with he
    rw [← he]
    exact hres
  | cons mm ms ih =>
    intro t hnd hall
    rw [List.all_cons, Bool.and_eq_true] at hall
    obtain ⟨hm1, hms⟩ := hall
    cases hrid : mm.request_id with
    | none =>
      have hstep : loopStep t mm = Except.ok t := by
        simp [loopStep, hrid]
      have hnd' : (ms.filterMap InMsg.request_id).Nodup := by
        simpa [List.filterMap_cons, hrid] using hnd
      obtain ⟨hex, hpres⟩ := ih t hnd' hms
      constructor
      · obtain ⟨t', ht'⟩ := hex
        exact ⟨t', by simp [runLoop, hstep, ht']⟩
      · intro rid m t' hres heq
        simp only [runLoop, hstep] at heq
        exact hpres rid m t' hres heq
    | some rid =>
      have hnd' : ((rid :: ms.filterMap InMsg.request_id)).Nodup := by
        simpa [List.filterMap_cons, hrid] using hnd
      obtain ⟨hnotin, hndtail⟩ := List.nodup_cons.1 hnd'
      cases hl : lookupFS t rid with
      | none =>
        have hstep : loopStep t mm = Except.ok t := by
          simp [loopStep, hrid, hl]
        obtain ⟨hex, hpres⟩ := ih t hndtail hms
        constructor
        · obtain ⟨t', ht'⟩ := hex
          exact ⟨t', by simp [runLoop, hstep, ht']⟩
        · intro rid0 m t' hres heq
          simp only [runLoop, hstep] at heq
          exact hpres rid0 m t' hres heq
      | some fs =>
        cases fs with
        | resolved mr =>
          exfalso
          simp [notResolvedTarget, hrid, hl] at hm1
        | pending =>
          have hstep : loopStep t mm = Except.ok (resolveEntry t rid mm) := by
            simp [loopStep, hrid, hl]
          have hms' : ms.all (notResolvedTarget (resolveEntry t rid mm)) = true := by
            rw [List.all_eq_true] at hms ⊢
            intro m2 hm2
            have h2 := hms m2 hm2
            cases h2rid : m2.request_id with
            | none => simp [notResolvedTarget, h2rid]
            | some rid2 =>
              have hne : rid2 ≠ rid := by
                intro he
                subst he
                exact hnotin (List.mem_filterMap.2 ⟨m2, hm2, h2rid⟩)
              simp only [notResolvedTarget, h2rid] at h2 ⊢
              rw [lookupFS_resolveEntry_ne t rid rid2 mm hne]
              exact h2
          obtain ⟨hex, hpres⟩ := ih (resolveEntry t rid mm) hndtail hms'
          constructor
          · obtain ⟨t2, ht2⟩ := hex
            exact ⟨t2, by simp [runLoop, hstep, ht2]⟩
          · intro rid0 m0 t2 hres heq
            have hne0 : rid0 ≠ rid := by
              intro he
              subst he
              rw [hres] at hl
              cases hl
            simp only [runLoop, hstep] at heq
            refine hpres rid0 m0 t2 ?_ heq
            rw [lookupFS_resolveEntry_ne t rid rid0 mm hne0]
            exact hres

/-- Witness for the amended C4 statement: one pending request, one
matching reply — the loop completes without error. -/
theorem distinct_request_ids_loop_ok_witness :
    ∃ t', runLoop [("req_1", FutureState.pending)]
        [{ msg_type := some "confirmation", request_id := some "req_1" }] =
      Except.ok t' :=
  (distinct_request_ids_loop_ok
    [{ msg_type := some "confirmation", request_id := some "req_1" }]
    [("req_1", FutureState.pending)] (by decide) (by decide)).1

end Spawn
